import Mathlib

/-!
Verification development for the AutoGeo workflow orchestration engine
(`geospatial_agents/orchestrator_langgraph.py`).

The Python source is shallowly embedded below.  Strings are modelled as
Lean `String` (a list of characters); Python regular-expression scans are
embedded as explicit character-level scanners; Python dicts that the
orchestrator threads through its state are modelled as association lists.
Recursive scans are written with an explicit fuel argument equal to an upper
bound on the number of iterations (each iteration consumes at least one
character / advances the step pointer), so every definition is executable
and reduces definitionally.  Python's `str.lower`, `\s`, `\d` and `\w` are
modelled at ASCII precision, which covers every string the orchestrator
compares against.
-/

namespace AutoGeo

/-! ## Basic string utilities -/

/-- Python `needle in haystack` substring test, on character lists. -/
def containsSubL (hay nee : List Char) : Bool :=
  match hay with
  | [] => nee.isEmpty
  | _ :: t => nee.isPrefixOf hay || containsSubL t nee

/-- Python `needle in haystack` substring test. -/
def containsSub (hay nee : String) : Bool :=
  containsSubL hay.data nee.data

/-- Python `str.lower()` (ASCII model). -/
def lowerStr (s : String) : String :=
  String.mk (s.data.map Char.toLower)

/-- Python regex `\w` (ASCII model): letters, digits and underscore. -/
def isWordChar (c : Char) : Bool :=
  c.isAlphanum || c = '_'

/-- Python `', '.join` over a list of strings. -/
def joinComma : List String → String
  | [] => ""
  | [x] => x
  | x :: xs => x ++ ", " ++ joinComma xs

/-- Python `str.replace(pat, rep)` (all non-overlapping occurrences, left to
right), on character lists, with fuel bounding the scan length. -/
def replaceAllAux (pat rep : List Char) : Nat → List Char → List Char
  | 0, l => l
  | _ + 1, [] => []
  | fuel + 1, c :: rest =>
    if pat.isPrefixOf (c :: rest) then
      rep ++ replaceAllAux pat rep fuel ((c :: rest).drop pat.length)
    else
      c :: replaceAllAux pat rep fuel rest

/-- Python `str.replace(pat, rep)` for a non-empty pattern. -/
def replaceAll (s pat rep : String) : String :=
  if pat.data.isEmpty then s
  else String.mk (replaceAllAux pat.data rep.data s.data.length s.data)

/-- Python `str.endswith(suf)`. -/
def endsWithStr (s suf : String) : Bool :=
  suf.data.isSuffixOf s.data

/-! ## URL extraction (`_extract_urls`)

Embeds the regex scan `re.findall(r'https?://[^\s<>"{}|\\^`\[\]]+', text)`:
a literal `http://` or `https://` prefix followed by one or more characters
outside the excluded class, scanned left to right, non-overlapping.  The
braces and the backtick of the excluded class are written via `Char.ofNat`
(codes 123, 125, 96); `\s` is modelled as ASCII whitespace. -/

/-- Characters excluded from a URL body by the regex character class. -/
def urlStop (c : Char) : Bool :=
  c = ' ' || c = '\t' || c = '\n' || c = '\r' ||
  c = Char.ofNat 11 || c = Char.ofNat 12 ||
  c = '<' || c = '>' || c = '\"' || c = Char.ofNat 123 || c = Char.ofNat 125 ||
  c = '|' || c = '\\' || c = '^' || c = Char.ofNat 96 || c = '[' || c = ']'

def litHttps : List Char := ['h', 't', 't', 'p', 's', ':', '/', '/']
def litHttp : List Char := ['h', 't', 't', 'p', ':', '/', '/']

/-- Try to match a URL at the head of `l`; return the match and the rest. -/
def matchUrlAt (l : List Char) : Option (List Char × List Char) :=
  if litHttps.isPrefixOf l then
    let rest := l.drop 8
    let body := rest.takeWhile (fun c => !urlStop c)
    if body.isEmpty then none else some (litHttps ++ body, rest.drop body.length)
  else if litHttp.isPrefixOf l then
    let rest := l.drop 7
    let body := rest.takeWhile (fun c => !urlStop c)
    if body.isEmpty then none else some (litHttp ++ body, rest.drop body.length)
  else none

def scanUrlsAux : Nat → List Char → List String
  | 0, _ => []
  | _ + 1, [] => []
  | fuel + 1, c :: rest =>
    match matchUrlAt (c :: rest) with
    | some (url, rest2) => String.mk url :: scanUrlsAux fuel rest2
    | none => scanUrlsAux fuel rest

/-- Embeds `_extract_urls`: all URL-shaped substrings of `text`, in order. -/
def extractUrls (text : String) : List String :=
  scanUrlsAux text.data.length text.data

/-! ## URL rewriting (`_is_huggingface_url`, `_convert_github_blob_url`) -/

/-- Embeds `_is_huggingface_url`. -/
def isHuggingfaceUrl (url : String) : Bool :=
  containsSub (lowerStr url) "huggingface.co" && containsSub (lowerStr url) "/datasets/"

/-- Embeds `_convert_github_blob_url`: rewrite a GitHub blob file URL to the raw
URL; directory URLs (ending in `/`) and non-blob URLs are left unchanged. -/
def convertGithubBlobUrl (url : String) : String :=
  if containsSub url "github.com" && containsSub url "/blob/" then
    if endsWithStr url "/" then url
    else replaceAll (replaceAll url "github.com" "raw.githubusercontent.com") "/blob/" "/"
  else url

/-- The per-URL attachment step of `_create_smart_default_workflow` lines
250-255: HuggingFace dataset URLs are kept as-is, others go through the
GitHub blob conversion. -/
def attachUrl (url : String) : String :=
  if isHuggingfaceUrl url then url else convertGithubBlobUrl url

/-! ## Quantity extraction (`_extract_number`)

`_extract_number` first scans for `\b(\d+)\b` (the first maximal run of
decimal digits whose neighbours are not word characters); failing that it
collects the whole-word occurrences of the spelled-out number vocabulary
from the lowered text, joins the first up to three of them and feeds them to
`word2number.w2n.word_to_num`. -/

/-- A digit run has a word boundary on a side iff the neighbouring character
is absent or not a word character. -/
def boundaryOk : Option Char → Bool
  | none => true
  | some c => !isWordChar c

/-- Integer value of a digit run, as Python `int`. -/
def digitsVal (l : List Char) : Nat :=
  l.foldl (fun a c => a * 10 + (c.toNat - 48)) 0

/-- Scan for the first maximal run of decimal digits bounded by word
boundaries on both sides (`\b(\d+)\b`).  `prev` is the character preceding
the current position. -/
def findNumAux : Nat → Option Char → List Char → Option Nat
  | 0, _, _ => none
  | _ + 1, _, [] => none
  | fuel + 1, prev, c :: rest =>
    if c.isDigit then
      let run := c :: rest.takeWhile Char.isDigit
      let rest2 := rest.dropWhile Char.isDigit
      if boundaryOk prev && boundaryOk rest2.head? then some (digitsVal run)
      else findNumAux fuel (some c) rest2
    else findNumAux fuel (some c) rest

/-- First `\b(\d+)\b` match of `text`, as an integer. -/
def findFirstBoundedNum (text : String) : Option Nat :=
  findNumAux text.data.length none text.data

/-- The spelled-out number vocabulary of the regex in `_extract_number`,
with the values `word2number` assigns to each word. -/
def codeVocab : List (String × Nat) :=
  [("one", 1), ("two", 2), ("three", 3), ("four", 4), ("five", 5),
   ("six", 6), ("seven", 7), ("eight", 8), ("nine", 9), ("ten", 10),
   ("eleven", 11), ("twelve", 12), ("thirteen", 13), ("fourteen", 14),
   ("fifteen", 15), ("sixteen", 16), ("seventeen", 17), ("eighteen", 18),
   ("nineteen", 19), ("twenty", 20), ("thirty", 30), ("forty", 40),
   ("fifty", 50), ("hundred", 100), ("thousand", 1000)]

def codeVocabVal (w : String) : Option Nat :=
  (codeVocab.find? (fun p => p.1 = w)).map (fun p => p.2)

/-- Split a character list into its maximal runs of word characters. -/
def wordRunsAux : Nat → List Char → List (List Char)
  | 0, _ => []
  | _ + 1, [] => []
  | fuel + 1, c :: rest =>
    if isWordChar c then
      (c :: rest.takeWhile isWordChar) :: wordRunsAux fuel (rest.dropWhile isWordChar)
    else wordRunsAux fuel rest

def wordRuns (l : List Char) : List (List Char) :=
  wordRunsAux l.length l

/-- The whole-word vocabulary matches of
`re.findall(r'\b(one|...|thousand)\b', text_lower)`: exactly the maximal
word-character runs that equal a vocabulary word, in order of occurrence
(each alternative requires a word boundary on both sides, so a match must be
a full word run). -/
def numberTokens (text : String) : List String :=
  ((wordRuns (lowerStr text).data).map String.mk).filter
    (fun w => (codeVocabVal w).isSome)

/-- Modelled from the spec: "standard word-to-number composition" — the
`word2number` library consumed by `_extract_number` is an external
dependency whose source is not part of this repository.  On up to three
tokens: a trailing `hundred`/`thousand` multiplies, a medial `hundred`
multiplies its left neighbour, everything else adds. -/
def w2nModel : List Nat → Option Nat
  | [] => none
  | [a] => some a
  | [a, b] => if b = 100 || b = 1000 then some (a * b) else some (a + b)
  | [a, b, c] =>
    if c = 1000 then some ((if b = 100 || b = 1000 then a * b else a + b) * 1000)
    else if b = 100 then some (a * 100 + c)
    else some (a + b + c)
  | _ => none

/-- Embeds `_extract_number`: first bounded digit run, else the first up to three
vocabulary tokens converted by `word2number` (`none` on failure). -/
def extractNumber (text : String) : Option Nat :=
  match findFirstBoundedNum text with
  | some n => some n
  | none =>
    let toks := (numberTokens text).take 3
    if toks.isEmpty then none else w2nModel (toks.filterMap codeVocabVal)

/-- The vocabulary as the claim states it: `one`…`ten`, the tens
`twenty`…`fifty`, `hundred`, `thousand` — written down for refinement
comparison with the code's vocabulary (which also has the teens). -/
def specVocab : List (String × Nat) :=
  [("one", 1), ("two", 2), ("three", 3), ("four", 4), ("five", 5),
   ("six", 6), ("seven", 7), ("eight", 8), ("nine", 9), ("ten", 10),
   ("twenty", 20), ("thirty", 30), ("forty", 40), ("fifty", 50),
   ("hundred", 100), ("thousand", 1000)]

def specVocabVal (w : String) : Option Nat :=
  (specVocab.find? (fun p => p.1 = w)).map (fun p => p.2)

/-- First contiguous run of spec-vocabulary tokens among the word runs. -/
def specFirstContig : List String → List String
  | [] => []
  | w :: rest =>
    if (specVocabVal w).isSome then w :: rest.takeWhile (fun v => (specVocabVal v).isSome)
    else specFirstContig rest

/-- The quantity extractor as the claim describes it (digit scan, then the
first contiguous run of up to three spec-vocabulary tokens) — a second
definition following the spec's words, for refinement comparison with
`extractNumber`. -/
def specExtractNumber (text : String) : Option Nat :=
  match findFirstBoundedNum text with
  | some n => some n
  | none =>
    let toks := (specFirstContig ((wordRuns (lowerStr text).data).map String.mk)).take 3
    if toks.isEmpty then none else w2nModel (toks.filterMap specVocabVal)

/-! ## Plan data model

A task's `parameters` dict only ever receives the keys `query`, `limit`,
`url`, `urls` and `format` from the heuristic builder; it is modelled as a
record of optional fields.  The `url` parameter holds either a single URL
string or a list (`converted_urls[0] if len(converted_urls) == 1 else
converted_urls`). -/

inductive UrlVal where
  | one (u : String)
  | many (us : List String)
deriving DecidableEq, Repr

structure Params where
  query : Option String := none
  limit : Option Nat := none
  url : Option UrlVal := none
  urls : Option (List String) := none
  format : Option String := none
deriving DecidableEq, Repr

structure Task where
  step_type : String
  description : String
  parameters : Params
  dependencies : List Nat
deriving DecidableEq, Repr

/-! ## Heuristic plan builder (`_create_smart_default_workflow`)

The Python function is a sequence of keyword-gated append blocks over a
growing `workflow` list; each block below is one stage definition, composed
in `createSmartDefaultWorkflow`. -/

/-- Embeds `requested_limit if requested_limit else 10` (Python truthiness: `None`
and `0` both fall back to 10). -/
def defaultLimit : Option Nat → Nat
  | some n => if n = 0 then 10 else n
  | none => 10

def anyKw (lower : String) (kws : List String) : Bool :=
  kws.any (fun k => containsSub lower k)

def downloadKeywords : List String := ["download", "get", "fetch", "retrieve", "obtain"]
def processKeywords : List String :=
  ["process", "analyze", "transform", "reproject", "clip", "calculate", "compute"]
def vizKeywords : List String :=
  ["visualize", "map", "plot", "show", "display", "create map", "risk map"]
def exportKeywords : List String := ["export", "save", "output"]

/-- Embeds `converted_urls[0] if len(converted_urls) == 1 else converted_urls`. -/
def urlParamVal : List String → UrlVal
  | [u] => .one u
  | us => .many us

/-- The search task appended by lines 234-240. -/
def searchTask (req : String) (dlim : Nat) : Task :=
  { step_type := "search",
    description := "Search for geospatial datasets related to: " ++ req,
    parameters := { query := some req, limit := some dlim },
    dependencies := [] }

/-- Lines 233-240: emit the search task when no URL was found and the text
lacks "download" or contains "search". -/
def smartStageSearch (req : String) (hasUrl : Bool) (lower : String) (dlim : Nat) :
    List Task :=
  if !hasUrl && (!containsSub lower "download" || containsSub lower "search") then
    [searchTask req dlim]
  else []

/-- Lines 242-266: emit a download task on download keywords or a URL. -/
def smartStageDownload (hasUrl : Bool) (lower : String) (dlim : Nat)
    (convUrls : List String) (w : List Task) : List Task :=
  if anyKw lower downloadKeywords || hasUrl then
    w ++ [{ step_type := "download",
            description := "Download " ++
              (if hasUrl then "from URL" else "the identified datasets"),
            parameters := { limit := some (min dlim 5),
                            url := if hasUrl then some (urlParamVal convUrls) else none,
                            urls := if hasUrl then some convUrls else none },
            dependencies := if !w.isEmpty && !hasUrl then [0] else [] }]
  else w

/-- Lines 268-276: emit a process task on processing keywords. -/
def smartStageProcess (req : String) (lower : String) (w : List Task) : List Task :=
  if anyKw lower processKeywords then
    w ++ [{ step_type := "process",
            description := "Process the downloaded data: " ++ req,
            parameters := {},
            dependencies := if w.isEmpty then [] else [w.length - 1] }]
  else w

/-- Embeds `any(step.get("step_type") in ["download", "process", "analysis"] ...)`. -/
def hasDataStep (w : List Task) : Bool :=
  w.any (fun t => t.step_type = "download" || t.step_type = "process" ||
                  t.step_type = "analysis")

/-- Lines 278-297: on visualization keywords, first insert a download task
if no data-producing step exists and no URL was detected, then emit the
visualization task. -/
def smartStageViz (hasUrl : Bool) (lower : String) (dlim : Nat) (w : List Task) :
    List Task :=
  if anyKw lower vizKeywords then
    let w2 :=
      if !hasDataStep w && !hasUrl then
        w ++ [{ step_type := "download",
                description := "Download datasets needed for visualization",
                parameters := { limit := some (min dlim 5) },
                dependencies :=
                  if !w.isEmpty &&
                     (match w.head? with
                      | some t => t.step_type = "search"
                      | none => false) then [0] else [] }]
      else w
    w2 ++ [{ step_type := "visualization",
             description := "Create visualization of the results",
             parameters := {},
             dependencies := if w2.isEmpty then [] else [w2.length - 1] }]
  else w

/-- Embeds `any(... in ["download", "process", "analysis", "visualization"])`. -/
def hasDataStepViz (w : List Task) : Bool :=
  w.any (fun t => t.step_type = "download" || t.step_type = "process" ||
                  t.step_type = "analysis" || t.step_type = "visualization")

/-- Lines 299-318: on export keywords, same data-existence insertion, then
the export task with the default output format. -/
def smartStageExport (hasUrl : Bool) (lower : String) (dlim : Nat) (w : List Task) :
    List Task :=
  if anyKw lower exportKeywords then
    let w2 :=
      if !hasDataStepViz w && !hasUrl then
        w ++ [{ step_type := "download",
                description := "Download datasets needed for export",
                parameters := { limit := some (min dlim 5) },
                dependencies :=
                  if !w.isEmpty &&
                     (match w.head? with
                      | some t => t.step_type = "search"
                      | none => false) then [0] else [] }]
      else w
    w2 ++ [{ step_type := "export",
             description := "Export the results",
             parameters := { format := some "geojson" },
             dependencies := if w2.isEmpty then [] else [w2.length - 1] }]
  else w

/-- Lines 320-335: if the plan is still empty or a bare search and the text
says "download", append a download task (this block converts GitHub blob
URLs without the HuggingFace exemption). -/
def smartStageBareDownload (hasUrl : Bool) (lower : String) (dlim : Nat)
    (urls : List String) (w : List Task) : List Task :=
  if (w.isEmpty ||
      (w.length = 1 &&
       (match w.head? with | some t => t.step_type = "search" | none => false))) &&
     containsSub lower "download" then
    let convUrls := urls.map convertGithubBlobUrl
    w ++ [{ step_type := "download",
            description := "Download " ++
              (if hasUrl then "from URL" else "the identified datasets"),
            parameters := { limit := some (min dlim 5),
                            url := if hasUrl then some (urlParamVal convUrls) else none,
                            urls := if hasUrl then some convUrls else none },
            dependencies := if w.isEmpty then [] else [0] }]
  else w

/-- Lines 337-348: a URL with an otherwise empty plan yields a single
download task (again without the HuggingFace exemption). -/
def smartStageUrlOnly (hasUrl : Bool) (urls : List String) (w : List Task) :
    List Task :=
  if hasUrl && w.isEmpty then
    let convUrls := urls.map convertGithubBlobUrl
    [{ step_type := "download",
       description := "Download dataset from URL",
       parameters := { url := some (urlParamVal convUrls), urls := some convUrls },
       dependencies := [] }]
  else w

/-- Embeds `_create_smart_default_workflow`. -/
def createSmartDefaultWorkflow (req : String) (requested_limit : Option Nat) :
    List Task :=
  let lower := lowerStr req
  let dlim := defaultLimit requested_limit
  let urls := extractUrls req
  let hasUrl := !urls.isEmpty
  let convUrls := urls.map attachUrl
  let w1 := smartStageSearch req hasUrl lower dlim
  let w2 := smartStageDownload hasUrl lower dlim convUrls w1
  let w3 := smartStageProcess req lower w2
  let w4 := smartStageViz hasUrl lower dlim w3
  let w5 := smartStageExport hasUrl lower dlim w4
  let w6 := smartStageBareDownload hasUrl lower dlim urls w5
  let w7 := smartStageUrlOnly hasUrl urls w6
  if w7.isEmpty then [searchTask req dlim] else w7

/-- The condition of line 234 under which the builder emits its search
task (`not has_url and ("download" not in request_lower or "search" in
request_lower)`), with the double negation on `has_url` collapsed. -/
def searchEmitCond (req : String) : Bool :=
  (extractUrls req).isEmpty &&
    (!containsSub (lowerStr req) "download" || containsSub (lowerStr req) "search")

/-! ## Workflow state and step execution

`WorkflowState` (a `TypedDict`) is modelled as a record; its dict-valued
fields become association lists, its message log a list of message
contents.  The eight agents are external collaborators: one agent call is
modelled as an `Outcome` — either a result record (the keys the executors
read from the returned dict) or a raised exception with its message.  A
whole run is driven by an `oracle : Nat → Outcome` giving the outcome of
the agent call made at each plan index (each index is executed at most
once, so indexing outcomes by plan position is fully general).

The LangGraph runtime is a consumed framework whose source is not in this
repository; its glue is modelled from the spec: the one mutable state is
threaded through router and step nodes, `_should_continue`'s skip
increments persist, and a route string that the conditional-edge map of
`_build_workflow` does not contain ("search" … "export", "end") makes the
framework raise, ending the run (`RunRes.crashed`). -/

structure WState where
  user_request : String
  workflow_plan : List Task
  current_step : Nat
  total_steps : Nat
  search_results : List String
  downloaded_data : List (String × String)
  processed_data : List (String × String)
  spatial_queries : List String
  transformations : List String
  analysis_results : List (String × String)
  visualizations : List String
  exports : List String
  errors : List String
  messages : List String
  final_outputs : List String
deriving DecidableEq, Repr

/-- The result dict returned by an agent's `execute`, restricted to the
keys the orchestrator reads. -/
structure HandlerResult where
  results : Option (List String) := none
  downloaded_data : Option (List (String × String)) := none
  filtered_data : Option String := none
  transformed_data : Option String := none
  processed_data : Option String := none
  analysis : Option String := none
  visualization_path : Option String := none
  export_path : Option String := none
  error : Option String := none
deriving DecidableEq, Repr

/-- One agent call either returns a result dict or raises. -/
inductive Outcome where
  | ok (r : HandlerResult)
  | raises (msg : String)
deriving DecidableEq, Repr

/-- The eight known step types (the conditional-edge map of
`_build_workflow`, minus "end"). -/
inductive StepKind where
  | search | download | spatial_query | transform | process
  | analysis | visualization | export
deriving DecidableEq, Repr

def parseKind (s : String) : Option StepKind :=
  if s = "search" then some .search
  else if s = "download" then some .download
  else if s = "spatial_query" then some .spatial_query
  else if s = "transform" then some .transform
  else if s = "process" then some .process
  else if s = "analysis" then some .analysis
  else if s = "visualization" then some .visualization
  else if s = "export" then some .export
  else none

/-- The step-type prefix of the error strings, e.g. "Search step failed:". -/
def kindLabel : StepKind → String
  | .search => "Search"
  | .download => "Download"
  | .spatial_query => "Spatial query"
  | .transform => "Transform"
  | .process => "Process"
  | .analysis => "Analysis"
  | .visualization => "Visualization"
  | .export => "Export"

/-- Python `dict.update`: existing keys keep their position with the new
value, new keys are appended in order. -/
def dictUpdate (base upd : List (String × String)) : List (String × String) :=
  (base.map fun p =>
    match upd.find? (fun q => q.1 = p.1) with
    | some q => (p.1, q.2)
    | none => p) ++
  upd.filter (fun q => (base.find? (fun p => p.1 = q.1)).isNone)

/-- Python `d[k] = v` on an association list. -/
def setKey (m : List (String × String)) (k v : String) : List (String × String) :=
  if m.any (fun p => p.1 = k) then
    m.map (fun p => if p.1 = k then (k, v) else p)
  else m ++ [(k, v)]

/-- Embeds `_execute_search`. -/
def execSearch (oc : Outcome) (s : WState) : WState :=
  match oc with
  | .ok r =>
    let res := r.results.getD []
    { s with search_results := res,
             current_step := s.current_step + 1,
             messages := s.messages ++
               [if !res.isEmpty then
                  "Search completed: found " ++ toString res.length ++ " results"
                else "Search completed but no results found"] }
  | .raises m =>
    { s with errors := s.errors ++ ["Search step failed: " ++ m],
             current_step := s.current_step + 1 }

/-- Embeds `_execute_download`. -/
def execDownload (oc : Outcome) (s : WState) : WState :=
  match oc with
  | .ok r =>
    let cnt := match r.downloaded_data with | some d => d.length | none => 0
    { s with downloaded_data :=
               match r.downloaded_data with
               | some d => dictUpdate s.downloaded_data d
               | none => s.downloaded_data,
             current_step := s.current_step + 1,
             messages := s.messages ++
               ["Download completed: " ++ toString cnt ++ " datasets"] }
  | .raises m =>
    { s with errors := s.errors ++ ["Download step failed: " ++ m],
             current_step := s.current_step + 1 }

/-- Embeds `_execute_spatial_query`. -/
def execSpatialQuery (oc : Outcome) (s : WState) : WState :=
  match oc with
  | .ok r =>
    { s with processed_data :=
               match r.filtered_data with
               | some v => setKey s.processed_data
                   ("spatial_query_" ++ toString s.current_step) v
               | none => s.processed_data,
             current_step := s.current_step + 1,
             messages := s.messages ++ ["Spatial query completed"] }
  | .raises m =>
    { s with errors := s.errors ++ ["Spatial query step failed: " ++ m],
             current_step := s.current_step + 1 }

/-- Embeds `_execute_transform`. -/
def execTransform (oc : Outcome) (s : WState) : WState :=
  match oc with
  | .ok r =>
    { s with processed_data :=
               match r.transformed_data with
               | some v => setKey s.processed_data
                   ("transform_" ++ toString s.current_step) v
               | none => s.processed_data,
             current_step := s.current_step + 1,
             messages := s.messages ++ ["Transform completed"] }
  | .raises m =>
    { s with errors := s.errors ++ ["Transform step failed: " ++ m],
             current_step := s.current_step + 1 }

/-- Embeds `_execute_process`. -/
def execProcess (oc : Outcome) (s : WState) : WState :=
  match oc with
  | .ok r =>
    { s with processed_data :=
               match r.processed_data with
               | some v => setKey s.processed_data
                   ("process_" ++ toString s.current_step) v
               | none => s.processed_data,
             current_step := s.current_step + 1,
             messages := s.messages ++ ["Processing completed"] }
  | .raises m =>
    { s with errors := s.errors ++ ["Process step failed: " ++ m],
             current_step := s.current_step + 1 }

/-- Embeds `_execute_analysis` (the key is written even when the result lacks an
`analysis` entry: `results.get("analysis", {})`, modelled as `""`). -/
def execAnalysis (oc : Outcome) (s : WState) : WState :=
  match oc with
  | .ok r =>
    { s with analysis_results := setKey s.analysis_results
               ("analysis_" ++ toString s.current_step) (r.analysis.getD ""),
             current_step := s.current_step + 1,
             messages := s.messages ++ ["Analysis completed"] }
  | .raises m =>
    { s with errors := s.errors ++ ["Analysis step failed: " ++ m],
             current_step := s.current_step + 1 }

/-- Embeds `_execute_visualization` (appends only a truthy `visualization_path`). -/
def execVisualization (oc : Outcome) (s : WState) : WState :=
  match oc with
  | .ok r =>
    { s with visualizations :=
               match r.visualization_path with
               | some p => if p = "" then s.visualizations else s.visualizations ++ [p]
               | none => s.visualizations,
             current_step := s.current_step + 1,
             messages := s.messages ++ ["Visualization completed"] }
  | .raises m =>
    { s with errors := s.errors ++ ["Visualization step failed: " ++ m],
             current_step := s.current_step + 1 }

/-- Embeds `_execute_export` (a truthy `export_path` goes to both `exports` and
`final_outputs`). -/
def execExport (oc : Outcome) (s : WState) : WState :=
  match oc with
  | .ok r =>
    { s with exports :=
               match r.export_path with
               | some p => if p = "" then s.exports else s.exports ++ [p]
               | none => s.exports,
             final_outputs :=
               match r.export_path with
               | some p => if p = "" then s.final_outputs else s.final_outputs ++ [p]
               | none => s.final_outputs,
             current_step := s.current_step + 1,
             messages := s.messages ++ ["Export completed"] }
  | .raises m =>
    { s with errors := s.errors ++ ["Export step failed: " ++ m],
             current_step := s.current_step + 1 }

/-- Dispatch to the step node named by the router. -/
def execNode (k : StepKind) (oc : Outcome) (s : WState) : WState :=
  match k with
  | .search => execSearch oc s
  | .download => execDownload oc s
  | .spatial_query => execSpatialQuery oc s
  | .transform => execTransform oc s
  | .process => execProcess oc s
  | .analysis => execAnalysis oc s
  | .visualization => execVisualization oc s
  | .export => execExport oc s

/-! ## Dependency gate, router and execution loop -/

/-- The skipping recursion of `_should_continue`: starting from `cs`,
advance past every task one of whose dependency indices is `≥` the current
pointer.  The fuel is `plan.length - cs`, exactly the number of possible
skips. -/
def skipFromAux (plan : List Task) : Nat → Nat → Nat
  | 0, cs => cs
  | fuel + 1, cs =>
    if h : cs < plan.length then
      if (plan.get ⟨cs, h⟩).dependencies.any (fun d => cs ≤ d) then
        skipFromAux plan fuel (cs + 1)
      else cs
    else cs

def skipFrom (plan : List Task) (cs : Nat) : Nat :=
  skipFromAux plan (plan.length - cs) cs

/-- The route string `_should_continue` returns once skipping has stopped
at `cs`: "end" past the plan, else the task's `step_type` (with the empty
string — Python falsy — mapped to "end"). -/
def routeOf (plan : List Task) (cs : Nat) : String :=
  match plan.get? cs with
  | some t => if t.step_type = "" then "end" else t.step_type
  | none => "end"

/-- Result of a workflow run: normal termination, or the LangGraph
framework raising on a route string absent from the conditional-edge map
(an unknown non-empty step type). -/
inductive RunRes where
  | finished (s : WState)
  | crashed (s : WState) (route : String)
deriving DecidableEq, Repr

/-- The execution loop, instrumented with a visit trace: one `(i, false)`
event per skipped index and one `(i, true)` event per executed index.  The
fuel bounds the number of node executions; every iteration advances
`current_step` by at least one, so `plan.length - current_step + 1` always
suffices (`runTrace_master` below is proved under exactly that bound). -/
def runTraceAux (oracle : Nat → Outcome) : Nat → WState → RunRes × List (Nat × Bool)
  | 0, s => (.finished s, [])
  | fuel + 1, s =>
    let cs2 := skipFrom s.workflow_plan s.current_step
    let s2 : WState := { s with current_step := cs2 }
    let route := routeOf s.workflow_plan cs2
    let skips := (List.range' s.current_step (cs2 - s.current_step)).map
      (fun i => (i, false))
    if route = "end" then (.finished s2, skips)
    else
      match parseKind route with
      | some k =>
        let out := runTraceAux oracle fuel (execNode k (oracle cs2) s2)
        (out.1, skips ++ (cs2, true) :: out.2)
      | none => (.crashed s2 route, skips)

def runTrace (oracle : Nat → Outcome) (s : WState) : RunRes × List (Nat × Bool) :=
  runTraceAux oracle (s.workflow_plan.length - s.current_step + 1) s

/-- The indices whose step node actually ran (the agent was invoked). -/
def executedOf (tr : List (Nat × Bool)) : List Nat :=
  (tr.filter (fun e => e.2)).map (fun e => e.1)

/-- Dependency gate condition at index `i`: every dependency index is
strictly below `i` (`_should_continue` skips on `any(dep >= current)`). -/
def depsReady (plan : List Task) (i : Nat) : Bool :=
  match plan.get? i with
  | some t => t.dependencies.all (fun d => d < i)
  | none => true

/-- Every task of the plan carries one of the eight known step types. -/
def AllKnown (plan : List Task) : Prop :=
  ∀ t ∈ plan, (parseKind t.step_type).isSome = true

instance (plan : List Task) : Decidable (AllKnown plan) := by
  unfold AllKnown; infer_instance

/-- The error entry contributed by plan index `i`: present exactly when the
agent call raises, prefixed with the step-type label. -/
def errEntry (plan : List Task) (oracle : Nat → Outcome) (i : Nat) : Option String :=
  match oracle i with
  | .raises m =>
    match plan.get? i with
    | some t =>
      match parseKind t.step_type with
      | some k => some (kindLabel k ++ " step failed: " ++ m)
      | none => none
    | none => none
  | .ok _ => none

/-- The message appended on a successful step, per step kind. -/
def succMsg (k : StepKind) (r : HandlerResult) : String :=
  match k with
  | .search =>
    if !(r.results.getD []).isEmpty then
      "Search completed: found " ++ toString (r.results.getD []).length ++ " results"
    else "Search completed but no results found"
  | .download =>
    "Download completed: " ++
      toString (match r.downloaded_data with | some d => d.length | none => 0) ++
      " datasets"
  | .spatial_query => "Spatial query completed"
  | .transform => "Transform completed"
  | .process => "Processing completed"
  | .analysis => "Analysis completed"
  | .visualization => "Visualization completed"
  | .export => "Export completed"

/-- The message entry contributed by plan index `i`: present exactly when
the agent call succeeds. -/
def msgEntry (plan : List Task) (oracle : Nat → Outcome) (i : Nat) : Option String :=
  match oracle i with
  | .ok r =>
    match plan.get? i with
    | some t =>
      match parseKind t.step_type with
      | some k => some (succMsg k r)
      | none => none
    | none => none
  | .raises _ => none

/-! ## Top-level `execute` -/

/-- The `initial_state` literal of `execute` (the message log starts with
the user request). -/
def initialState (req : String) : WState :=
  { user_request := req, workflow_plan := [], current_step := 0, total_steps := 0,
    search_results := [], downloaded_data := [], processed_data := [],
    spatial_queries := [], transformations := [], analysis_results := [],
    visualizations := [], exports := [], errors := [], messages := [req],
    final_outputs := [] }

/-- The planner's log message (`_plan_workflow` line 538). -/
def planMsg (plan : List Task) : String :=
  "Workflow planned with " ++ toString plan.length ++ " steps: " ++
    joinComma (plan.map (fun t => t.step_type))

/-- The state as it leaves `_plan_workflow`, given the plan it settled on
(the upstream reasoning collaborator that proposes plan text is out of
scope, so the plan is a parameter here). -/
def plannedState (req : String) (plan : List Task) : WState :=
  { initialState req with
      workflow_plan := plan, total_steps := plan.length, current_step := 0,
      messages := [req, planMsg plan] }

/-- The dict returned by `execute`. -/
structure ExecResult where
  success : Bool
  search_results : List String
  downloaded_data : List (String × String)
  processed_data : List (String × String)
  final_outputs : List String
  visualizations : List String
  analysis_results : List (String × String)
  errors : List String
  messages : List String
deriving DecidableEq, Repr

def mkResult (s : WState) : ExecResult :=
  { success := s.errors.isEmpty,
    search_results := s.search_results,
    downloaded_data := s.downloaded_data,
    processed_data := s.processed_data,
    final_outputs := s.final_outputs,
    visualizations := s.visualizations,
    analysis_results := s.analysis_results,
    errors := s.errors,
    messages := s.messages }

/-- Embeds `execute`: run the workflow and summarize the final state.  `execute`
itself has no exception handler, so a framework error raised on an unknown
route escapes the call — modelled as `Except.error` (no result dict). -/
def executeModel (req : String) (plan : List Task) (oracle : Nat → Outcome) :
    Except String ExecResult :=
  match (runTrace oracle (plannedState req plan)).1 with
  | .finished s1 => .ok (mkResult s1)
  | .crashed _ route => .error ("Unknown workflow route: " ++ route)

/-- The run's pointer stands at `p` when it halts (normally or by a
framework error). -/
def haltedAt (res : RunRes) (p : Nat) : Prop :=
  match res with
  | .finished s1 => s1.current_step = p
  | .crashed s1 _ => s1.current_step = p

/-! ## Concrete plans, oracles and states used as test inputs -/

def wTaskSearch : Task :=
  { step_type := "search", description := "s", parameters := {}, dependencies := [] }

def wTaskDownload : Task :=
  { step_type := "download", description := "d", parameters := {}, dependencies := [0] }

/-- A task whose dependency list references its own position (index 1 in a
two-task plan): never satisfiable. -/
def wTaskForwardDep : Task :=
  { step_type := "download", description := "d", parameters := {}, dependencies := [1] }

/-- A task with a step type outside the eight known variants. -/
def wTaskUnknown : Task :=
  { step_type := "mystery", description := "m", parameters := {}, dependencies := [0] }

/-- Oracle: every agent call succeeds with an empty result dict. -/
def wOracleOk : Nat → Outcome := fun _ => Outcome.ok {}

/-- Oracle: the agent call at plan index 0 raises, the rest succeed. -/
def wOracleBoom : Nat → Outcome :=
  fun i => if i = 0 then Outcome.raises "boom" else Outcome.ok {}

def c4Plan : List Task := [wTaskSearch]

def c4Start : WState := plannedState "find data" c4Plan

/-- A plan shape the upstream reasoning collaborator can produce: a single
task whose step type is not one of the eight known variants. -/
def c5BadPlan : List Task :=
  [{ step_type := "foo", description := "", parameters := {}, dependencies := [] }]

/-! ## Lemmas about the dependency gate -/

theorem decide_le_eq_not_lt (a c : Nat) : (decide (c ≤ a)) = !decide (a < c) := by
  by_cases h : c ≤ a
  · simp [h, Nat.not_lt.mpr h]
  · simp [h, Nat.lt_of_not_le h]

theorem depsAny_eq (l : List Nat) (c : Nat) :
    (l.any fun d => c ≤ d) = !(l.all fun d => d < c) := by
  induction l with
  | nil => rfl
  | cons a t ih =>
    rw [List.any_cons, List.all_cons, ih, Bool.not_and, decide_le_eq_not_lt]

theorem depsReady_eq (plan : List Task) (cs : Nat) (h : cs < plan.length) :
    depsReady plan cs = ((plan.get ⟨cs, h⟩).dependencies.all fun d => d < cs) := by
  unfold depsReady
  rw [List.get?_eq_get h]

theorem skipFromAux_ge (plan : List Task) :
    ∀ fuel cs, cs ≤ skipFromAux plan fuel cs := by
  intro fuel
  induction fuel with
  | zero => intro cs; exact Nat.le_refl cs
  | succ n ih =>
    intro cs
    simp only [skipFromAux]
    split
    · split
      · exact Nat.le_trans (Nat.le_succ cs) (ih (cs + 1))
      · exact Nat.le_refl cs
    · exact Nat.le_refl cs

theorem skipFromAux_le (plan : List Task) :
    ∀ fuel cs, cs ≤ plan.length → skipFromAux plan fuel cs ≤ plan.length := by
  intro fuel
  induction fuel with
  | zero => intro cs h; exact h
  | succ n ih =>
    intro cs h
    simp only [skipFromAux]
    split
    · split
      · exact ih (cs + 1) (by omega)
      · exact h
    · exact h

theorem skipFromAux_skipped (plan : List Task) :
    ∀ fuel cs i, cs ≤ i → i < skipFromAux plan fuel cs →
      depsReady plan i = false := by
  intro fuel
  induction fuel with
  | zero => intro cs i h1 h2; simp only [skipFromAux] at h2; omega
  | succ n ih =>
    intro cs i h1 h2
    simp only [skipFromAux] at h2
    by_cases h : cs < plan.length
    · rw [dif_pos h] at h2
      by_cases hany : ((plan.get ⟨cs, h⟩).dependencies.any fun d => decide (cs ≤ d)) = true
      · rw [if_pos hany] at h2
        rcases Nat.lt_or_ge i (cs + 1) with hi | hi
        · have hieq : i = cs := by omega
          subst hieq
          rw [depsReady_eq plan i h]
          rw [depsAny_eq] at hany
          simpa using hany
        · exact ih (cs + 1) i hi h2
      · rw [if_neg hany] at h2; omega
    · rw [dif_neg h] at h2; omega

theorem skipFromAux_ready (plan : List Task) :
    ∀ fuel cs, plan.length - cs ≤ fuel →
      skipFromAux plan fuel cs < plan.length →
      depsReady plan (skipFromAux plan fuel cs) = true := by
  intro fuel
  induction fuel with
  | zero => intro cs hf hlt; simp only [skipFromAux] at hlt; omega
  | succ n ih =>
    intro cs hf hlt
    simp only [skipFromAux] at hlt ⊢
    by_cases h : cs < plan.length
    · rw [dif_pos h] at hlt ⊢
      by_cases hany : ((plan.get ⟨cs, h⟩).dependencies.any fun d => decide (cs ≤ d)) = true
      · rw [if_pos hany] at hlt ⊢
        exact ih (cs + 1) (by omega) hlt
      · rw [if_neg hany] at hlt ⊢
        rw [depsReady_eq plan cs h]
        have h2 : ((plan.get ⟨cs, h⟩).dependencies.any fun d => decide (cs ≤ d)) = false := by
          simpa using hany
        rw [depsAny_eq] at h2
        simpa using h2
    · rw [dif_neg h] at hlt; omega

theorem skipFromAux_min (plan : List Task) :
    ∀ fuel cs p, cs ≤ p → depsReady plan p = true →
      skipFromAux plan fuel cs ≤ p := by
  intro fuel
  induction fuel with
  | zero => intro cs p h1 _; exact h1
  | succ n ih =>
    intro cs p h1 hp
    simp only [skipFromAux]
    by_cases h : cs < plan.length
    · rw [dif_pos h]
      by_cases hany : ((plan.get ⟨cs, h⟩).dependencies.any fun d => decide (cs ≤ d)) = true
      · rw [if_pos hany]
        rcases Nat.eq_or_lt_of_le h1 with heq | hlt
        · subst heq
          rw [depsReady_eq plan cs h] at hp
          rw [depsAny_eq, hp] at hany
          simp at hany
        · exact ih (cs + 1) p hlt hp
      · rw [if_neg hany]; exact h1
    · rw [dif_neg h]; exact h1

theorem skipFrom_ge (plan : List Task) (cs : Nat) : cs ≤ skipFrom plan cs :=
  skipFromAux_ge plan _ cs

theorem skipFrom_le (plan : List Task) (cs : Nat) (h : cs ≤ plan.length) :
    skipFrom plan cs ≤ plan.length :=
  skipFromAux_le plan _ cs h

theorem skipFrom_skipped (plan : List Task) (cs i : Nat) (h1 : cs ≤ i)
    (h2 : i < skipFrom plan cs) : depsReady plan i = false :=
  skipFromAux_skipped plan _ cs i h1 h2

theorem skipFrom_ready (plan : List Task) (cs : Nat)
    (h : skipFrom plan cs < plan.length) :
    depsReady plan (skipFrom plan cs) = true :=
  skipFromAux_ready plan _ cs (Nat.le_refl _) h

theorem skipFrom_min (plan : List Task) (cs p : Nat) (h1 : cs ≤ p)
    (hp : depsReady plan p = true) : skipFrom plan cs ≤ p :=
  skipFromAux_min plan _ cs p h1 hp

/-! ## Lemmas about the router and the step nodes -/

theorem routeOf_of_ge (plan : List Task) (cs : Nat) (h : plan.length ≤ cs) :
    routeOf plan cs = "end" := by
  unfold routeOf
  rw [List.get?_eq_none.mpr h]

theorem routeOf_of_lt (plan : List Task) (cs : Nat) (h : cs < plan.length) :
    routeOf plan cs =
      (if (plan.get ⟨cs, h⟩).step_type = "" then "end"
       else (plan.get ⟨cs, h⟩).step_type) := by
  unfold routeOf
  rw [List.get?_eq_get h]

theorem parseKind_known_ne (t : String) (h : (parseKind t).isSome = true) :
    t ≠ "" ∧ t ≠ "end" := by
  constructor <;> rintro rfl <;> exact absurd h (by decide)

theorem routeOf_ne_end (plan : List Task) (cs : Nat)
    (hall : AllKnown plan) (h : cs < plan.length) :
    routeOf plan cs = (plan.get ⟨cs, h⟩).step_type ∧ routeOf plan cs ≠ "end" := by
  have hmem : plan.get ⟨cs, h⟩ ∈ plan := plan.get_mem cs h
  have hknown := hall _ hmem
  obtain ⟨hne, hnend⟩ := parseKind_known_ne _ hknown
  rw [routeOf_of_lt plan cs h, if_neg hne]
  exact ⟨rfl, hnend⟩

theorem execNode_workflow_plan (k : StepKind) (oc : Outcome) (s : WState) :
    (execNode k oc s).workflow_plan = s.workflow_plan := by
  cases k <;> cases oc <;> rfl

theorem execNode_user_request (k : StepKind) (oc : Outcome) (s : WState) :
    (execNode k oc s).user_request = s.user_request := by
  cases k <;> cases oc <;> rfl

theorem execNode_current_step (k : StepKind) (oc : Outcome) (s : WState) :
    (execNode k oc s).current_step = s.current_step + 1 := by
  cases k <;> cases oc <;> rfl

theorem execNode_errors (k : StepKind) (oc : Outcome) (s : WState) :
    (execNode k oc s).errors = s.errors ++
      (match oc with
       | .raises m => [kindLabel k ++ " step failed: " ++ m]
       | .ok _ => []) := by
  cases k <;> cases oc <;> simp [execNode, execSearch, execDownload, execSpatialQuery,
    execTransform, execProcess, execAnalysis, execVisualization, execExport, kindLabel]

theorem execNode_messages (k : StepKind) (oc : Outcome) (s : WState) :
    (execNode k oc s).messages = s.messages ++
      (match oc with
       | .ok r => [succMsg k r]
       | .raises _ => []) := by
  cases k <;> cases oc <;> simp [execNode, execSearch, execDownload, execSpatialQuery,
    execTransform, execProcess, execAnalysis, execVisualization, execExport, succMsg]

/-! ## Lemmas about traces -/

theorem executedOf_append (l1 l2 : List (Nat × Bool)) :
    executedOf (l1 ++ l2) = executedOf l1 ++ executedOf l2 := by
  simp [executedOf, List.filter_append]

theorem executedOf_cons_true (i : Nat) (tr : List (Nat × Bool)) :
    executedOf ((i, true) :: tr) = i :: executedOf tr := by
  simp [executedOf]

theorem executedOf_falseMap (l : List Nat) :
    executedOf (l.map fun i => (i, false)) = [] := by
  induction l with
  | nil => rfl
  | cons a t _ => simp [executedOf, List.filter]

theorem mapFst_falseMap (l : List Nat) :
    (l.map fun i => (i, false)).map Prod.fst = l := by
  induction l with
  | nil => rfl
  | cons a t ih => simp [ih]

theorem mem_executedOf (i : Nat) (tr : List (Nat × Bool)) :
    i ∈ executedOf tr ↔ (i, true) ∈ tr := by
  simp only [executedOf, List.mem_map, List.mem_filter]
  constructor
  · rintro ⟨⟨a, b⟩, ⟨hmem, hb⟩, rfl⟩
    simp only at hb
    subst hb
    exact hmem
  · intro h
    exact ⟨(i, true), ⟨h, rfl⟩, rfl⟩

theorem errEntry_at (plan : List Task) (oracle : Nat → Outcome) (i : Nat)
    (k : StepKind) (h : i < plan.length)
    (hk : parseKind (plan.get ⟨i, h⟩).step_type = some k) :
    errEntry plan oracle i =
      (match oracle i with
       | .raises m => some (kindLabel k ++ " step failed: " ++ m)
       | .ok _ => none) := by
  unfold errEntry
  cases oracle i with
  | raises m => simp only [List.get?_eq_get h, hk]
  | ok r => rfl

theorem msgEntry_at (plan : List Task) (oracle : Nat → Outcome) (i : Nat)
    (k : StepKind) (h : i < plan.length)
    (hk : parseKind (plan.get ⟨i, h⟩).step_type = some k) :
    msgEntry plan oracle i =
      (match oracle i with
       | .ok r => some (succMsg k r)
       | .raises _ => none) := by
  unfold msgEntry
  cases oracle i with
  | ok r => simp only [List.get?_eq_get h, hk]
  | raises m => rfl

/-- Gluing the skip segment, the executed index and the tail trace into one
contiguous index range. -/
theorem rangeGlue (a b c : Nat) (h1 : a ≤ b) (h2 : b < c) :
    List.range' a (b - a) ++ b :: List.range' (b + 1) (c - (b + 1)) =
      List.range' a (c - a) := by
  obtain ⟨k, hk⟩ : ∃ k, b - a = k := ⟨b - a, rfl⟩
  induction k generalizing a with
  | zero =>
    have hab : a = b := by omega
    subst hab
    have hca : c - a = (c - (a + 1)) + 1 := by omega
    rw [hk, hca, List.range'_succ]
    rfl
  | succ n ih =>
    have hca : c - a = (c - (a + 1)) + 1 := by omega
    have hba : b - a = (b - (a + 1)) + 1 := by omega
    rw [hk, ← hk, hba, List.range'_succ, hca, List.range'_succ]
    simp only [List.cons_append, List.cons.injEq, true_and]
    exact ih (a + 1) (by omega) (by omega)

/-- Master lemma about the execution loop: on a plan whose step types are
all known, with enough fuel, the run finishes with `current_step` at the
plan's length; the visit trace covers exactly the remaining index range in
order; executed indices are exactly the dependency-ready ones; and the
final error/message logs are the initial ones extended by the per-executed-
index entries. -/
theorem runTraceAux_master (oracle : Nat → Outcome) :
    ∀ (fuel : Nat) (s : WState),
      AllKnown s.workflow_plan →
      s.current_step ≤ s.workflow_plan.length →
      s.workflow_plan.length - s.current_step < fuel →
      ∃ s1,
        (runTraceAux oracle fuel s).1 = .finished s1 ∧
        s1.workflow_plan = s.workflow_plan ∧
        s1.user_request = s.user_request ∧
        s1.current_step = s.workflow_plan.length ∧
        ((runTraceAux oracle fuel s).2).map Prod.fst =
          List.range' s.current_step (s.workflow_plan.length - s.current_step) ∧
        (∀ i ∈ executedOf (runTraceAux oracle fuel s).2,
           depsReady s.workflow_plan i = true) ∧
        (∀ i b, (i, b) ∈ (runTraceAux oracle fuel s).2 → b = false →
           depsReady s.workflow_plan i = false) ∧
        s1.errors = s.errors ++
          (executedOf (runTraceAux oracle fuel s).2).filterMap
            (errEntry s.workflow_plan oracle) ∧
        s1.messages = s.messages ++
          (executedOf (runTraceAux oracle fuel s).2).filterMap
            (msgEntry s.workflow_plan oracle) := by
  intro fuel
  induction fuel with
  | zero => intro s _ _ hfuel; omega
  | succ n ih =>
    intro s hall hcs hfuel
    simp only [runTraceAux]
    set cs2 := skipFrom s.workflow_plan s.current_step with hcs2
    have hge : s.current_step ≤ cs2 := skipFrom_ge s.workflow_plan s.current_step
    have hle : cs2 ≤ s.workflow_plan.length :=
      skipFrom_le s.workflow_plan s.current_step hcs
    by_cases hroute : routeOf s.workflow_plan cs2 = "end"
    · have hcseq : cs2 = s.workflow_plan.length := by
        rcases Nat.lt_or_ge cs2 s.workflow_plan.length with h | h
        · exact absurd hroute (routeOf_ne_end s.workflow_plan cs2 hall h).2
        · omega
      rw [if_pos hroute]
      refine ⟨{ s with current_step := cs2 }, rfl, rfl, rfl, hcseq, ?_, ?_, ?_, ?_, ?_⟩
      · rw [mapFst_falseMap, hcseq]
      · intro i hi
        rw [executedOf_falseMap] at hi
        cases hi
      · intro i b hmem _
        rcases List.mem_map.mp hmem with ⟨a, ha, heq⟩
        rw [Prod.mk.injEq] at heq
        obtain ⟨h1, h2⟩ := heq
        have hbounds := List.mem_range'_1.mp ha
        rw [← h1]
        exact skipFrom_skipped s.workflow_plan s.current_step a hbounds.1 (by omega)
      · simp [executedOf_falseMap]
      · simp [executedOf_falseMap]
    · have hlt : cs2 < s.workflow_plan.length := by
        rcases Nat.lt_or_ge cs2 s.workflow_plan.length with h | h
        · exact h
        · exact absurd (routeOf_of_ge s.workflow_plan cs2 h) hroute
      obtain ⟨hrt, -⟩ := routeOf_ne_end s.workflow_plan cs2 hall hlt
      have hks : (parseKind (routeOf s.workflow_plan cs2)).isSome = true := by
        rw [hrt]
        exact hall _ (s.workflow_plan.get_mem cs2 hlt)
      rcases Option.isSome_iff_exists.mp hks with ⟨k, hk⟩
      have hkt : parseKind (s.workflow_plan.get ⟨cs2, hlt⟩).step_type = some k := by
        rw [← hrt]; exact hk
      simp only [if_neg hroute, hk]
      set s3 : WState := execNode k (oracle cs2) { s with current_step := cs2 }
        with hs3
      have hplan3 : s3.workflow_plan = s.workflow_plan := execNode_workflow_plan ..
      have hcs3 : s3.current_step = cs2 + 1 := execNode_current_step ..
      obtain ⟨s1, hA, hB, hC, hD, hE, hF, hG, hH, hI⟩ :=
        ih s3 (by rw [hplan3]; exact hall) (by rw [hcs3, hplan3]; exact hlt)
          (by rw [hcs3, hplan3]; omega)
      rw [hplan3] at hB hD hE hF hG hH hI
      rw [hcs3] at hE
      rw [execNode_user_request] at hC
      rw [execNode_errors] at hH
      rw [execNode_messages] at hI
      refine ⟨s1, hA, hB, hC, hD, ?_, ?_, ?_, ?_, ?_⟩
      · rw [List.map_append, List.map_cons, mapFst_falseMap, hE]
        exact rangeGlue s.current_step cs2 s.workflow_plan.length hge hlt
      · intro i hi
        rw [executedOf_append, executedOf_falseMap, executedOf_cons_true] at hi
        rcases List.mem_cons.mp hi with hieq | hitail
        · subst hieq
          exact skipFrom_ready s.workflow_plan s.current_step hlt
        · exact hF i hitail
      · intro i b hmem hb
        rcases List.mem_append.mp hmem with hsk | hcons
        · rcases List.mem_map.mp hsk with ⟨a, ha, heq⟩
          rw [Prod.mk.injEq] at heq
          obtain ⟨h1, h2⟩ := heq
          have hbounds := List.mem_range'_1.mp ha
          rw [← h1]
          exact skipFrom_skipped s.workflow_plan s.current_step a hbounds.1 (by omega)
        · rcases List.mem_cons.mp hcons with heq | htail
          · rw [Prod.mk.injEq] at heq
            subst hb
            exact absurd heq.2.symm (by simp)
          · exact hG i b htail hb
      · rw [hH, executedOf_append, executedOf_falseMap, executedOf_cons_true,
            List.nil_append, List.filterMap_cons,
            errEntry_at s.workflow_plan oracle cs2 k hlt hkt]
        generalize oracle cs2 = oc
        cases oc <;> simp [List.append_assoc]
      · rw [hI, executedOf_append, executedOf_falseMap, executedOf_cons_true,
            List.nil_append, List.filterMap_cons,
            msgEntry_at s.workflow_plan oracle cs2 k hlt hkt]
        generalize oracle cs2 = oc
        cases oc <;> simp [List.append_assoc]

/-- Halting lemma for an unknown step type: if every task strictly before
`p` has a known step type, the task at `p` is dependency-ready and its step
type is not one of the eight known ones, then the run visits only indices
below `p` and halts with the pointer at `p`. -/
theorem runTraceAux_haltAt (oracle : Nat → Outcome) (p : Nat) :
    ∀ (fuel : Nat) (s : WState),
      s.current_step ≤ p →
      (hp : p < s.workflow_plan.length) →
      (∀ q t, q < p → s.workflow_plan.get? q = some t →
        (parseKind t.step_type).isSome = true) →
      depsReady s.workflow_plan p = true →
      parseKind (s.workflow_plan.get ⟨p, hp⟩).step_type = none →
      p - s.current_step < fuel →
      (∀ i b, (i, b) ∈ (runTraceAux oracle fuel s).2 → i < p) ∧
      haltedAt (runTraceAux oracle fuel s).1 p := by
  intro fuel
  induction fuel with
  | zero => intro s _ _ _ _ _ hfuel; omega
  | succ n ih =>
    intro s hcsp hp hbefore hready hunk hfuel
    simp only [runTraceAux]
    set cs2 := skipFrom s.workflow_plan s.current_step with hcs2
    have hge : s.current_step ≤ cs2 := skipFrom_ge s.workflow_plan s.current_step
    have hmin : cs2 ≤ p := skipFrom_min s.workflow_plan s.current_step p hcsp hready
    have hpkend : parseKind "end" = none := by decide
    by_cases heq : cs2 = p
    · have hrp : parseKind (routeOf s.workflow_plan cs2) = none := by
        rw [heq, routeOf_of_lt s.workflow_plan p hp]
        by_cases hempty : (s.workflow_plan.get ⟨p, hp⟩).step_type = ""
        · rw [if_pos hempty]; exact hpkend
        · rw [if_neg hempty]; exact hunk
      by_cases hend : routeOf s.workflow_plan cs2 = "end"
      · rw [if_pos hend]
        constructor
        · intro i b hmem
          rcases List.mem_map.mp hmem with ⟨a, ha, heqp⟩
          rw [Prod.mk.injEq] at heqp
          have hbounds := List.mem_range'_1.mp ha
          omega
        · exact heq
      · simp only [if_neg hend, hrp]
        constructor
        · intro i b hmem
          rcases List.mem_map.mp hmem with ⟨a, ha, heqp⟩
          rw [Prod.mk.injEq] at heqp
          have hbounds := List.mem_range'_1.mp ha
          omega
        · exact heq
    · have hlt2 : cs2 < p := by omega
      have hltlen : cs2 < s.workflow_plan.length := by omega
      have hget : s.workflow_plan.get? cs2 = some (s.workflow_plan.get ⟨cs2, hltlen⟩) :=
        List.get?_eq_get hltlen
      have hknown := hbefore cs2 _ hlt2 hget
      obtain ⟨hne, hnend⟩ := parseKind_known_ne _ hknown
      have hrt : routeOf s.workflow_plan cs2 =
          (s.workflow_plan.get ⟨cs2, hltlen⟩).step_type := by
        rw [routeOf_of_lt s.workflow_plan cs2 hltlen, if_neg hne]
      have hroute : routeOf s.workflow_plan cs2 ≠ "end" := by rw [hrt]; exact hnend
      rcases Option.isSome_iff_exists.mp (hrt ▸ hknown) with ⟨k, hk⟩
      simp only [if_neg hroute, hk]
      set s3 : WState := execNode k (oracle cs2) { s with current_step := cs2 }
        with hs3
      have hplan3 : s3.workflow_plan = s.workflow_plan := execNode_workflow_plan ..
      have hcs3 : s3.current_step = cs2 + 1 := execNode_current_step ..
      have hp3 : p < s3.workflow_plan.length := by rw [hplan3]; exact hp
      obtain ⟨htr, hres⟩ := ih s3 (by omega)
        hp3
        (by intro q t hq hqt; exact hbefore q t hq (by rw [← hplan3]; exact hqt))
        (by rw [hplan3]; exact hready)
        (by
          have h1 : s3.workflow_plan.get? p = some (s3.workflow_plan.get ⟨p, hp3⟩) :=
            List.get?_eq_get hp3
          have h2 : s.workflow_plan.get? p = some (s.workflow_plan.get ⟨p, hp⟩) :=
            List.get?_eq_get hp
          have h4 : s.workflow_plan.get? p = some (s3.workflow_plan.get ⟨p, hp3⟩) := by
            rw [← hplan3]; exact h1
          rw [h2] at h4
          injection h4 with h3
          rw [← h3]; exact hunk)
        (by omega)
      constructor
      · intro i b hmem
        rcases List.mem_append.mp hmem with hsk | hcons
        · rcases List.mem_map.mp hsk with ⟨a, ha, heqp⟩
          rw [Prod.mk.injEq] at heqp
          have hbounds := List.mem_range'_1.mp ha
          omega
        · rcases List.mem_cons.mp hcons with heqp | htail
          · rw [Prod.mk.injEq] at heqp
            omega
          · exact htr i b htail
      · exact hres

/-- Lemma: `runTrace` instantiates `runTraceAux` with adequate fuel. -/
theorem runTrace_master (oracle : Nat → Outcome) (s : WState)
    (hall : AllKnown s.workflow_plan)
    (hcs : s.current_step ≤ s.workflow_plan.length) :
    ∃ s1,
      (runTrace oracle s).1 = .finished s1 ∧
      s1.workflow_plan = s.workflow_plan ∧
      s1.user_request = s.user_request ∧
      s1.current_step = s.workflow_plan.length ∧
      ((runTrace oracle s).2).map Prod.fst =
        List.range' s.current_step (s.workflow_plan.length - s.current_step) ∧
      (∀ i ∈ executedOf (runTrace oracle s).2,
         depsReady s.workflow_plan i = true) ∧
      (∀ i b, (i, b) ∈ (runTrace oracle s).2 → b = false →
         depsReady s.workflow_plan i = false) ∧
      s1.errors = s.errors ++
        (executedOf (runTrace oracle s).2).filterMap
          (errEntry s.workflow_plan oracle) ∧
      s1.messages = s.messages ++
        (executedOf (runTrace oracle s).2).filterMap
          (msgEntry s.workflow_plan oracle) :=
  runTraceAux_master oracle _ s hall hcs (by omega)

/-! ## Claims about the execution loop -/

/-- C1: for every plan of length N whose tasks all carry one of the 8 known
step types, the execution loop (started at `current_step = 0`, whatever the
agents do) visits each index 0..N-1 exactly once and in order — the visit
trace's indices are exactly `[0, 1, …, N-1]`, so `current_step` grows by
exactly 1 per iteration whether the task executes or is skipped — and the
run terminates normally exactly when `current_step` equals N. -/
theorem c1_visits_each_index_once (oracle : Nat → Outcome) (s : WState)
    (hall : AllKnown s.workflow_plan) (h0 : s.current_step = 0) :
    ∃ s1,
      (runTrace oracle s).1 = .finished s1 ∧
      s1.current_step = s.workflow_plan.length ∧
      ((runTrace oracle s).2).map Prod.fst =
        List.range s.workflow_plan.length := by
  obtain ⟨s1, hA, _, _, hD, hE, _, _, _, _⟩ :=
    runTrace_master oracle s hall (by omega)
  refine ⟨s1, hA, hD, ?_⟩
  rw [hE, h0, List.range_eq_range']
  simp

theorem c1_witness :
    ∃ s1,
      (runTrace wOracleOk (plannedState "r" [wTaskSearch, wTaskDownload])).1 =
        RunRes.finished s1 ∧
      s1.current_step =
        (plannedState "r" [wTaskSearch, wTaskDownload]).workflow_plan.length ∧
      ((runTrace wOracleOk (plannedState "r" [wTaskSearch, wTaskDownload])).2).map
          Prod.fst =
        List.range (plannedState "r" [wTaskSearch, wTaskDownload]).workflow_plan.length :=
  c1_visits_each_index_once wOracleOk _ (by decide) rfl

/-- C2: a task at position p with any dependency index ≥ p is permanently
skipped, for every plan (with known step types, so the loop reaches p) and
every agent behaviour: p appears in the visit trace as a skip, is never
executed (its agent is never invoked — the oracle is only consulted at
executed indices), and the final `errors` list is the initial one extended
only by entries of executed indices, so the skip contributes none —
independent of the task's parameters or description. -/
theorem c2_unmet_dependency_skip (oracle : Nat → Outcome) (s : WState) (p : Nat)
    (hall : AllKnown s.workflow_plan) (h0 : s.current_step = 0)
    (hp : p < s.workflow_plan.length)
    (hdep : depsReady s.workflow_plan p = false) :
    ∃ s1,
      (runTrace oracle s).1 = .finished s1 ∧
      (p, false) ∈ (runTrace oracle s).2 ∧
      (p, true) ∉ (runTrace oracle s).2 ∧
      p ∉ executedOf (runTrace oracle s).2 ∧
      s1.errors = s.errors ++
        (executedOf (runTrace oracle s).2).filterMap
          (errEntry s.workflow_plan oracle) := by
  obtain ⟨s1, hA, _, _, _, hE, hF, _, hH, _⟩ :=
    runTrace_master oracle s hall (by omega)
  have hnotexec : p ∉ executedOf (runTrace oracle s).2 := by
    intro hmem
    rw [hF p hmem] at hdep
    cases hdep
  have hptrue : (p, true) ∉ (runTrace oracle s).2 := by
    intro hmem
    exact hnotexec ((mem_executedOf p _).mpr hmem)
  have hpmem : p ∈ ((runTrace oracle s).2).map Prod.fst := by
    rw [hE, h0]
    exact List.mem_range'_1.mpr ⟨by omega, by omega⟩
  rcases List.mem_map.mp hpmem with ⟨⟨a, b⟩, hab, hfst⟩
  simp only [] at hfst
  subst hfst
  cases b with
  | true => exact absurd hab hptrue
  | false => exact ⟨s1, hA, hab, hptrue, hnotexec, hH⟩

theorem c2_witness :
    ∃ s1,
      (runTrace wOracleOk (plannedState "r" [wTaskSearch, wTaskForwardDep])).1 =
        RunRes.finished s1 ∧
      (1, false) ∈ (runTrace wOracleOk (plannedState "r" [wTaskSearch, wTaskForwardDep])).2 ∧
      (1, true) ∉ (runTrace wOracleOk (plannedState "r" [wTaskSearch, wTaskForwardDep])).2 ∧
      1 ∉ executedOf (runTrace wOracleOk (plannedState "r" [wTaskSearch, wTaskForwardDep])).2 ∧
      s1.errors = (plannedState "r" [wTaskSearch, wTaskForwardDep]).errors ++
        (executedOf (runTrace wOracleOk (plannedState "r" [wTaskSearch, wTaskForwardDep])).2).filterMap
          (errEntry (plannedState "r" [wTaskSearch, wTaskForwardDep]).workflow_plan wOracleOk) :=
  c2_unmet_dependency_skip wOracleOk _ 1 (by decide) rfl (by decide) (by decide)

/-- C3: if the dependency-ready task at position p carries a step type that
is not one of the 8 known variants (and the loop reaches p, i.e. every task
before p is well-typed), the entire remaining workflow is terminated: the
visit trace contains only indices below p — in particular no task at a
position > p is ever attempted, and p itself never executes — and the run
halts (normally on an empty step type, with a framework routing error
otherwise) with the pointer at p; this is unlike an ordinary step failure,
which lets the loop continue. -/
theorem c3_unknown_step_type_terminal (oracle : Nat → Outcome) (s : WState)
    (p : Nat) (h0 : s.current_step = 0)
    (hp : p < s.workflow_plan.length)
    (hbefore : ∀ q t, q < p → s.workflow_plan.get? q = some t →
      (parseKind t.step_type).isSome = true)
    (hready : depsReady s.workflow_plan p = true)
    (hunk : parseKind (s.workflow_plan.get ⟨p, hp⟩).step_type = none) :
    (∀ i b, (i, b) ∈ (runTrace oracle s).2 → i < p) ∧
    haltedAt (runTrace oracle s).1 p :=
  runTraceAux_haltAt oracle p _ s (by omega) hp hbefore hready hunk (by omega)

theorem c3_witness :
    (∀ i b, (i, b) ∈ (runTrace wOracleOk (plannedState "r" [wTaskSearch, wTaskUnknown])).2 →
       i < 1) ∧
    haltedAt (runTrace wOracleOk (plannedState "r" [wTaskSearch, wTaskUnknown])).1 1 :=
  c3_unknown_step_type_terminal wOracleOk _ 1 rfl (by decide)
    (by
      intro q t hq hget
      have hq0 : q = 0 := by omega
      subst hq0
      injection hget with h
      rw [← h]
      decide)
    (by decide) (by decide)

/-- C4 (amended): when the agent call of the dependency-ready task at
position p raises with message m (all step types known), the loop catches
it: the run still finishes with every index visited — all subsequent tasks
are attempted — p is executed, the formatted entry
"<StepType> step failed: <m>" is what p contributes to `errors`, nothing is
re-raised, and p contributes no entry to `messages` (the failure is only
printed to the console, not logged). -/
theorem c4_step_failure_isolated (oracle : Nat → Outcome) (s : WState)
    (p : Nat) (k : StepKind) (m : String)
    (hall : AllKnown s.workflow_plan) (h0 : s.current_step = 0)
    (hp : p < s.workflow_plan.length)
    (hready : depsReady s.workflow_plan p = true)
    (hk : parseKind (s.workflow_plan.get ⟨p, hp⟩).step_type = some k)
    (hraise : oracle p = .raises m) :
    ∃ s1,
      (runTrace oracle s).1 = .finished s1 ∧
      s1.current_step = s.workflow_plan.length ∧
      p ∈ executedOf (runTrace oracle s).2 ∧
      ((runTrace oracle s).2).map Prod.fst = List.range s.workflow_plan.length ∧
      s1.errors = s.errors ++
        (executedOf (runTrace oracle s).2).filterMap
          (errEntry s.workflow_plan oracle) ∧
      errEntry s.workflow_plan oracle p =
        some (kindLabel k ++ " step failed: " ++ m) ∧
      s1.messages = s.messages ++
        (executedOf (runTrace oracle s).2).filterMap
          (msgEntry s.workflow_plan oracle) ∧
      msgEntry s.workflow_plan oracle p = none := by
  obtain ⟨s1, hA, _, _, hD, hE, hF, hG, hH, hI⟩ :=
    runTrace_master oracle s hall (by omega)
  have hpmem : p ∈ ((runTrace oracle s).2).map Prod.fst := by
    rw [hE, h0]
    exact List.mem_range'_1.mpr ⟨by omega, by omega⟩
  rcases List.mem_map.mp hpmem with ⟨⟨a, b⟩, hab, hfst⟩
  simp only [] at hfst
  rw [hfst] at hab
  have hexec : p ∈ executedOf (runTrace oracle s).2 := by
    cases b with
    | true => exact (mem_executedOf p _).mpr hab
    | false => exact absurd (hG p false hab rfl) (by rw [hready]; simp)
  refine ⟨s1, hA, hD, hexec, ?_, hH, ?_, hI, ?_⟩
  · rw [hE, h0, List.range_eq_range']
    simp
  · rw [errEntry_at s.workflow_plan oracle p k hp hk, hraise]
  · rw [msgEntry_at s.workflow_plan oracle p k hp hk, hraise]

theorem c4_witness :
    ∃ s1,
      (runTrace wOracleBoom (plannedState "r" [wTaskSearch, wTaskDownload])).1 =
        RunRes.finished s1 ∧
      s1.current_step =
        (plannedState "r" [wTaskSearch, wTaskDownload]).workflow_plan.length ∧
      0 ∈ executedOf (runTrace wOracleBoom (plannedState "r" [wTaskSearch, wTaskDownload])).2 ∧
      ((runTrace wOracleBoom (plannedState "r" [wTaskSearch, wTaskDownload])).2).map Prod.fst =
        List.range (plannedState "r" [wTaskSearch, wTaskDownload]).workflow_plan.length ∧
      s1.errors = (plannedState "r" [wTaskSearch, wTaskDownload]).errors ++
        (executedOf (runTrace wOracleBoom (plannedState "r" [wTaskSearch, wTaskDownload])).2).filterMap
          (errEntry (plannedState "r" [wTaskSearch, wTaskDownload]).workflow_plan wOracleBoom) ∧
      errEntry (plannedState "r" [wTaskSearch, wTaskDownload]).workflow_plan wOracleBoom 0 =
        some (kindLabel StepKind.search ++ " step failed: " ++ "boom") ∧
      s1.messages = (plannedState "r" [wTaskSearch, wTaskDownload]).messages ++
        (executedOf (runTrace wOracleBoom (plannedState "r" [wTaskSearch, wTaskDownload])).2).filterMap
          (msgEntry (plannedState "r" [wTaskSearch, wTaskDownload]).workflow_plan wOracleBoom) ∧
      msgEntry (plannedState "r" [wTaskSearch, wTaskDownload]).workflow_plan wOracleBoom 0 = none :=
  c4_step_failure_isolated wOracleBoom _ 0 StepKind.search "boom"
    (by decide) rfl (by decide) (by decide) (by decide) rfl

/-- C4 counterexample to the claim as stated: in this concrete run the only
task's handler raises "boom"; the loop records
"Search step failed: boom" in `errors` and advances, but appends nothing to
`messages` — the final state's message log equals the initial one
(user request and planner log only), with no failure message, contradicting
the claim's "appends a failure message to messages". -/
theorem c4_counterexample :
    (runTrace wOracleBoom c4Start).1 =
      RunRes.finished
        { c4Start with current_step := 1, errors := ["Search step failed: boom"] } ∧
    c4Start.messages = ["find data", "Workflow planned with 1 steps: search"] := by
  constructor
  · rfl
  · rfl

/-- C5 (amended): whenever every task of the planned workflow carries one of
the 8 known step types, `execute` returns a result dict whose `success`
flag is `true` iff the accumulated `errors` list is empty (however many
tasks were skipped), and the dict carries the final state's
`search_results`, `downloaded_data`, `processed_data`, `final_outputs`,
`visualizations`, `analysis_results`, `errors` and `messages` unchanged. -/
theorem c5_success_iff_no_errors (req : String) (plan : List Task)
    (oracle : Nat → Outcome) (hall : AllKnown plan) :
    ∃ s1 r,
      (runTrace oracle (plannedState req plan)).1 = .finished s1 ∧
      executeModel req plan oracle = .ok r ∧
      (r.success = true ↔ r.errors = []) ∧
      r.search_results = s1.search_results ∧
      r.downloaded_data = s1.downloaded_data ∧
      r.processed_data = s1.processed_data ∧
      r.final_outputs = s1.final_outputs ∧
      r.visualizations = s1.visualizations ∧
      r.analysis_results = s1.analysis_results ∧
      r.errors = s1.errors ∧
      r.messages = s1.messages := by
  obtain ⟨s1, hA, _, _, _, _, _, _, _, _⟩ :=
    runTrace_master oracle (plannedState req plan) hall (Nat.zero_le _)
  refine ⟨s1, mkResult s1, hA, ?_, ?_, rfl, rfl, rfl, rfl, rfl, rfl, rfl, rfl⟩
  · unfold executeModel
    rw [hA]
  · show s1.errors.isEmpty = true ↔ (mkResult s1).errors = []
    have hre : (mkResult s1).errors = s1.errors := rfl
    rw [hre]
    cases s1.errors <;> simp

theorem c5_witness :
    ∃ s1 r,
      (runTrace wOracleOk (plannedState "r" [wTaskSearch])).1 = RunRes.finished s1 ∧
      executeModel "r" [wTaskSearch] wOracleOk = .ok r ∧
      (r.success = true ↔ r.errors = []) ∧
      r.search_results = s1.search_results ∧
      r.downloaded_data = s1.downloaded_data ∧
      r.processed_data = s1.processed_data ∧
      r.final_outputs = s1.final_outputs ∧
      r.visualizations = s1.visualizations ∧
      r.analysis_results = s1.analysis_results ∧
      r.errors = s1.errors ∧
      r.messages = s1.messages :=
  c5_success_iff_no_errors "r" [wTaskSearch] wOracleOk (by decide)

/-- C5 counterexample to the claim as stated: on a plan whose only task has
the unknown step type "foo" (a shape the upstream collaborator's text can
produce, which `_plan_workflow` does not validate), `execute` does not
return a result dict at all — the framework's routing error escapes the
call, discarding whatever was accumulated — contradicting "the top-level
execute call returns a result … always includes the partial artifacts". -/
theorem c5_counterexample :
    executeModel "fetch data" c5BadPlan wOracleOk =
      .error "Unknown workflow route: foo" := by
  rfl

/-! ## Lemmas about the heuristic builder's stages

Every stage after the search stage only appends tasks (the URL-only stage
replaces the list only when it is empty, which is also an append), and no
stage after the search stage ever appends a task of step type "search". -/

theorem smartStageDownload_append (hasUrl : Bool) (lower : String) (dlim : Nat)
    (convUrls : List String) (w : List Task) :
    ∃ sfx, smartStageDownload hasUrl lower dlim convUrls w = w ++ sfx ∧
      (∀ t ∈ sfx, t.step_type = "download") ∧
      ((anyKw lower downloadKeywords || hasUrl) = true → sfx ≠ []) := by
  unfold smartStageDownload
  split
  case isTrue h =>
    refine ⟨_, rfl, ?_, ?_⟩
    · intro t ht
      simp only [List.mem_singleton] at ht
      subst ht
      rfl
    · intro _
      simp
  case isFalse h =>
    exact ⟨[], by simp, by simp, fun hc => absurd hc h⟩

theorem smartStageProcess_append (req : String) (lower : String) (w : List Task) :
    ∃ sfx, smartStageProcess req lower w = w ++ sfx ∧
      ∀ t ∈ sfx, t.step_type = "process" := by
  unfold smartStageProcess
  split
  · refine ⟨_, rfl, ?_⟩
    intro t ht
    simp only [List.mem_singleton] at ht
    subst ht
    rfl
  · exact ⟨[], by simp, by simp⟩

theorem smartStageViz_append (hasUrl : Bool) (lower : String) (dlim : Nat)
    (w : List Task) :
    ∃ sfx, smartStageViz hasUrl lower dlim w = w ++ sfx ∧
      ∀ t ∈ sfx, t.step_type = "download" ∨ t.step_type = "visualization" := by
  unfold smartStageViz
  split
  · split
    · refine ⟨_, List.append_assoc w _ _, ?_⟩
      intro t ht
      rcases List.mem_append.mp ht with h | h
      · simp only [List.mem_singleton] at h
        subst h
        exact Or.inl rfl
      · simp only [List.mem_singleton] at h
        subst h
        exact Or.inr rfl
    · refine ⟨_, rfl, ?_⟩
      intro t ht
      simp only [List.mem_singleton] at ht
      subst ht
      exact Or.inr rfl
  · exact ⟨[], by simp, by simp⟩

theorem smartStageExport_append (hasUrl : Bool) (lower : String) (dlim : Nat)
    (w : List Task) :
    ∃ sfx, smartStageExport hasUrl lower dlim w = w ++ sfx ∧
      ∀ t ∈ sfx, t.step_type = "download" ∨ t.step_type = "export" := by
  unfold smartStageExport
  split
  · split
    · refine ⟨_, List.append_assoc w _ _, ?_⟩
      intro t ht
      rcases List.mem_append.mp ht with h | h
      · simp only [List.mem_singleton] at h
        subst h
        exact Or.inl rfl
      · simp only [List.mem_singleton] at h
        subst h
        exact Or.inr rfl
    · refine ⟨_, rfl, ?_⟩
      intro t ht
      simp only [List.mem_singleton] at ht
      subst ht
      exact Or.inr rfl
  · exact ⟨[], by simp, by simp⟩

theorem smartStageBareDownload_append (hasUrl : Bool) (lower : String)
    (dlim : Nat) (urls : List String) (w : List Task) :
    ∃ sfx, smartStageBareDownload hasUrl lower dlim urls w = w ++ sfx ∧
      ∀ t ∈ sfx, t.step_type = "download" := by
  unfold smartStageBareDownload
  split
  · refine ⟨_, rfl, ?_⟩
    intro t ht
    simp only [List.mem_singleton] at ht
    subst ht
    rfl
  · exact ⟨[], by simp, by simp⟩

theorem smartStageUrlOnly_append (hasUrl : Bool) (urls : List String)
    (w : List Task) :
    ∃ sfx, smartStageUrlOnly hasUrl urls w = w ++ sfx ∧
      ∀ t ∈ sfx, t.step_type = "download" := by
  unfold smartStageUrlOnly
  split
  case isTrue h =>
    have hw : w = [] := by
      have h2 := (Bool.and_eq_true _ _).mp h
      rcases w with _ | ⟨a, t⟩
      · rfl
      · exact absurd h2.2 (by simp)
    subst hw
    refine ⟨_, rfl, ?_⟩
    intro t ht
    simp only [List.nil_append, List.mem_singleton] at ht
    subst ht
    rfl
  case isFalse h =>
    exact ⟨[], by simp, by simp⟩

theorem smartStageSearch_pos (req : String) (hasUrl : Bool) (lower : String)
    (dlim : Nat)
    (h : (!hasUrl && (!containsSub lower "download" || containsSub lower "search")) = true) :
    smartStageSearch req hasUrl lower dlim = [searchTask req dlim] := by
  unfold smartStageSearch
  rw [if_pos h]

theorem smartStageSearch_neg (req : String) (hasUrl : Bool) (lower : String)
    (dlim : Nat)
    (h : (!hasUrl && (!containsSub lower "download" || containsSub lower "search")) = false) :
    smartStageSearch req hasUrl lower dlim = [] := by
  unfold smartStageSearch
  rw [if_neg (by intro hc; rw [hc] at h; exact absurd h (by decide))]

theorem ifEmptyLen (w : List Task) (t : Task) :
    0 < (if w.isEmpty then [t] else w).length := by
  cases w <;> simp

/-! ## Claims about the heuristic builder -/

/-- C6: the heuristic plan builder returns a non-empty task list for every
request string (including the empty string) and every optional quantity
hint — the final fallback emits a single search task when nothing else was
produced. -/
theorem c6_builder_never_empty (req : String) (hint : Option Nat) :
    0 < (createSmartDefaultWorkflow req hint).length := by
  simp only [createSmartDefaultWorkflow]
  exact ifEmptyLen _ _

theorem c6_witness : 0 < (createSmartDefaultWorkflow "" none).length :=
  c6_builder_never_empty "" none

/-- C7 counterexample to the claim as stated: for the request
"search elevation" with no quantity hint, the emitted SEARCH task carries
`parameters.limit = some 10` (the hard-coded default) — the claim's
"parameters.limit is set to the quantity hint only if a quantity hint
exists" would require the limit to be absent here. -/
theorem c7_counterexample :
    (createSmartDefaultWorkflow "search elevation" none).head? =
      some (searchTask "search elevation" 10) ∧
    (searchTask "search elevation" 10).parameters.limit = some 10 := by
  constructor
  · rfl
  · rfl

/-- C7 (amended): for every request text and hint, the heuristic builder
emits a SEARCH task — as the first task, with `parameters.query` the full
request text and `parameters.limit` equal to the hint when one exists and
is non-zero and 10 otherwise — exactly when no URL is present in the text
and (the text lacks the literal word "download" OR contains "search");
when the condition fails, no task of the resulting plan is a SEARCH task. -/
theorem c7_search_emission (req : String) (hint : Option Nat) :
    (searchEmitCond req = true →
      (createSmartDefaultWorkflow req hint).head? =
        some (searchTask req (defaultLimit hint))) ∧
    (searchEmitCond req = false →
      ∀ t ∈ createSmartDefaultWorkflow req hint, t.step_type ≠ "search") := by
  constructor
  · intro hcond
    simp only [createSmartDefaultWorkflow]
    rw [smartStageSearch_pos req _ _ _ (by rw [Bool.not_not]; exact hcond)]
    obtain ⟨s2, h2, _, _⟩ := smartStageDownload_append (!(extractUrls req).isEmpty)
      (lowerStr req) (defaultLimit hint) ((extractUrls req).map attachUrl)
      [searchTask req (defaultLimit hint)]
    rw [h2]
    obtain ⟨s3, h3, _⟩ := smartStageProcess_append req (lowerStr req)
      ([searchTask req (defaultLimit hint)] ++ s2)
    rw [h3]
    obtain ⟨s4, h4, _⟩ := smartStageViz_append (!(extractUrls req).isEmpty)
      (lowerStr req) (defaultLimit hint)
      ([searchTask req (defaultLimit hint)] ++ s2 ++ s3)
    rw [h4]
    obtain ⟨s5, h5, _⟩ := smartStageExport_append (!(extractUrls req).isEmpty)
      (lowerStr req) (defaultLimit hint)
      ([searchTask req (defaultLimit hint)] ++ s2 ++ s3 ++ s4)
    rw [h5]
    obtain ⟨s6, h6, _⟩ := smartStageBareDownload_append (!(extractUrls req).isEmpty)
      (lowerStr req) (defaultLimit hint) (extractUrls req)
      ([searchTask req (defaultLimit hint)] ++ s2 ++ s3 ++ s4 ++ s5)
    rw [h6]
    obtain ⟨s7, h7, _⟩ := smartStageUrlOnly_append (!(extractUrls req).isEmpty)
      (extractUrls req)
      ([searchTask req (defaultLimit hint)] ++ s2 ++ s3 ++ s4 ++ s5 ++ s6)
    rw [h7]
    simp
  · intro hcond t ht
    simp only [createSmartDefaultWorkflow] at ht
    rw [smartStageSearch_neg req _ _ _ (by rw [Bool.not_not]; exact hcond)] at ht
    have hdl : (anyKw (lowerStr req) downloadKeywords || !(extractUrls req).isEmpty) = true := by
      by_cases hurl : (extractUrls req).isEmpty = true
      · unfold searchEmitCond at hcond
        rw [hurl] at hcond
        simp only [Bool.true_and, Bool.or_eq_false_iff, Bool.not_eq_false'] at hcond
        unfold anyKw downloadKeywords
        simp [List.any_cons, hcond.1]
      · simp only [Bool.not_eq_true] at hurl
        simp [hurl]
    obtain ⟨s2, h2, hm2, hne2⟩ := smartStageDownload_append (!(extractUrls req).isEmpty)
      (lowerStr req) (defaultLimit hint) ((extractUrls req).map attachUrl) []
    rw [h2] at ht
    have hs2ne : s2 ≠ [] := hne2 hdl
    obtain ⟨s3, h3, hm3⟩ := smartStageProcess_append req (lowerStr req) ([] ++ s2)
    rw [h3] at ht
    obtain ⟨s4, h4, hm4⟩ := smartStageViz_append (!(extractUrls req).isEmpty)
      (lowerStr req) (defaultLimit hint) ([] ++ s2 ++ s3)
    rw [h4] at ht
    obtain ⟨s5, h5, hm5⟩ := smartStageExport_append (!(extractUrls req).isEmpty)
      (lowerStr req) (defaultLimit hint) ([] ++ s2 ++ s3 ++ s4)
    rw [h5] at ht
    obtain ⟨s6, h6, hm6⟩ := smartStageBareDownload_append (!(extractUrls req).isEmpty)
      (lowerStr req) (defaultLimit hint) (extractUrls req) ([] ++ s2 ++ s3 ++ s4 ++ s5)
    rw [h6] at ht
    obtain ⟨s7, h7, hm7⟩ := smartStageUrlOnly_append (!(extractUrls req).isEmpty)
      (extractUrls req) ([] ++ s2 ++ s3 ++ s4 ++ s5 ++ s6)
    rw [h7] at ht
    have hne : (([] ++ s2 ++ s3 ++ s4 ++ s5 ++ s6 ++ s7) : List Task).isEmpty = false := by
      cases s2 with
      | nil => exact absurd rfl hs2ne
      | cons a l => simp
    rw [if_neg (by rw [hne]; exact (by decide))] at ht
    simp only [List.nil_append, List.mem_append] at ht
    rcases ht with ((((hts2 | hts3) | hts4) | hts5) | hts6) | hts7
    · rw [hm2 t hts2]; decide
    · rw [hm3 t hts3]; decide
    · rcases hm4 t hts4 with h | h <;> rw [h] <;> decide
    · rcases hm5 t hts5 with h | h <;> rw [h] <;> decide
    · rw [hm6 t hts6]; decide
    · rw [hm7 t hts7]; decide

theorem c7_witness :
    (createSmartDefaultWorkflow "search elevation data" none).head? =
      some (searchTask "search elevation data" (defaultLimit none)) :=
  (c7_search_emission "search elevation data" none).1 (by decide)

/-- C8 counterexample to the claim as stated: the claim's vocabulary
("one…ten, tens twenty…fifty, hundred, thousand") omits the teens, so the
algorithm it describes (embodied by `specExtractNumber`) returns `none` on
"find twelve datasets", while the code's vocabulary includes
eleven…nineteen and returns 12 — which is also what the claim's own example
demands, so the claim contradicts both the code and itself. -/
theorem c8_counterexample :
    extractNumber "find twelve datasets" = some 12 ∧
    specExtractNumber "find twelve datasets" = none := by
  constructor
  · rfl
  · rfl

/-- C8 (amended): the quantity extractor returns the integer value of the
first maximal run of decimal digits bounded by word boundaries whenever one
exists; otherwise it joins the first up to three whole-word tokens of the
vocabulary one…twenty, thirty, forty, fifty, hundred, thousand found
anywhere in the lowered text (not necessarily contiguous) and converts
them; with no digit run and no vocabulary token it returns none.  In
particular "find 12 datasets" gives 12, "find twelve datasets" gives 12 and
"find datasets" gives none. -/
theorem c8_quantity_extraction :
    extractNumber "find 12 datasets" = some 12 ∧
    extractNumber "find twelve datasets" = some 12 ∧
    extractNumber "find datasets" = none ∧
    (∀ text n, findFirstBoundedNum text = some n → extractNumber text = some n) ∧
    (∀ text, findFirstBoundedNum text = none → numberTokens text = [] →
      extractNumber text = none) := by
  refine ⟨rfl, rfl, rfl, ?_, ?_⟩
  · intro text n h
    unfold extractNumber
    rw [h]
  · intro text h1 h2
    unfold extractNumber
    rw [h1, h2]
    rfl

theorem c8_witness : extractNumber "give me 42 maps" = some 42 :=
  c8_quantity_extraction.2.2.2.1 "give me 42 maps" 42 rfl

/-- C9: for the request "Create a map of 7 flood datasets" the extractor
yields the hint 7, and the builder produces exactly a SEARCH task with
`parameters.limit = 7`, an auto-inserted DOWNLOAD task (no data-producing
step preceded the visualization and no URL was present) depending on the
SEARCH task at index 0, and a VISUALIZATION task depending on that DOWNLOAD
task at index 1. -/
theorem c9_scenario_map_seven_floods :
    extractNumber "Create a map of 7 flood datasets" = some 7 ∧
    createSmartDefaultWorkflow "Create a map of 7 flood datasets" (some 7) =
      [searchTask "Create a map of 7 flood datasets" 7,
       { step_type := "download",
         description := "Download datasets needed for visualization",
         parameters := { limit := some 5 },
         dependencies := [0] },
       { step_type := "visualization",
         description := "Create visualization of the results",
         parameters := {},
         dependencies := [1] }] := by
  constructor
  · rfl
  · rfl

/-- C10: when the builder attaches a detected URL to a DOWNLOAD task's
parameters, a HuggingFace dataset URL is attached unchanged; any other URL
containing "github.com" and "/blob/" and not ending in "/" is first
rewritten by replacing "github.com" with "raw.githubusercontent.com" and
dropping "/blob/"; so the `url` parameter in the plan may differ from the
URL text found in the request — as it does for
"Download https://github.com/a/b/blob/main/f.tif". -/
theorem c10_url_attachment (u : String) :
    (isHuggingfaceUrl u = true → attachUrl u = u) ∧
    (isHuggingfaceUrl u = false →
     containsSub u "github.com" = true →
     containsSub u "/blob/" = true →
     endsWithStr u "/" = false →
     attachUrl u =
       replaceAll (replaceAll u "github.com" "raw.githubusercontent.com")
         "/blob/" "/") ∧
    ((createSmartDefaultWorkflow "Download https://github.com/a/b/blob/main/f.tif" none).head?.bind
        (fun t => t.parameters.url)) =
      some (UrlVal.one "https://raw.githubusercontent.com/a/b/main/f.tif") ∧
    extractUrls "Download https://github.com/a/b/blob/main/f.tif" =
      ["https://github.com/a/b/blob/main/f.tif"] := by
  refine ⟨?_, ?_, rfl, rfl⟩
  · intro h
    unfold attachUrl
    rw [if_pos h]
  · intro h1 h2 h3 h4
    unfold attachUrl convertGithubBlobUrl
    rw [if_neg (by intro hc; rw [hc] at h1; exact absurd h1 (by decide)),
        if_pos (by rw [h2, h3]; rfl),
        if_neg (by intro hc; rw [hc] at h4; exact absurd h4 (by decide))]

theorem c10_witness :
    attachUrl "https://github.com/x/y/blob/z/w.txt" =
      replaceAll (replaceAll "https://github.com/x/y/blob/z/w.txt"
        "github.com" "raw.githubusercontent.com") "/blob/" "/" :=
  (c10_url_attachment "https://github.com/x/y/blob/z/w.txt").2.1
    (by decide) (by decide) (by decide) (by decide)

end AutoGeo
